import Mathlib

/-!
Shallow embedding of `companies_job_links_find.py` (class `CareerPageFinder`).

Network effects are modelled by an explicit environment `Env`:
`search` is the outcome of the one DuckDuckGo results-page GET performed by
`search_company_website` (an exception, or the list of `href` attributes of the
anchors carrying CSS class `result__a`, in page order); `fetch url` is the
outcome of the homepage GET plus HTML parse (an exception, or the list of
anchors that carry an `href` attribute, in page order, with their
whitespace-stripped visible text); `probe url` is the outcome of one HEAD
request of the fallback loop; `urljoin` is `urllib.parse.urljoin`, an external
library function kept abstract.

Python strings are Lean `String`s; Python truthiness of a string is emptiness;
`str.lower()` is `lowerStr` below; the `in` substring operator is `hasSubstr`
below; `rstrip('/')` is `rstripSlash` below.
-/

namespace CareerFinder

/-- An `<a>` element found by `soup.find_all('a', href=True)`: its raw `href`
attribute and its visible text as returned by `get_text(strip=True)`. -/
structure Anchor where
  href : String
  text : String
deriving DecidableEq

/-- Outcome of `self.session.get(main_website)` followed by
`BeautifulSoup(response.content, 'html.parser')`: an exception anywhere in
fetch or parse, or the parsed list of anchors bearing an `href`. -/
inductive FetchOutcome where
  | exn : FetchOutcome
  | page : List Anchor → FetchOutcome
deriving DecidableEq

/-- Outcome of one `self.session.head(test_url)`: an exception, or an HTTP
status code. -/
inductive ProbeOutcome where
  | exn : ProbeOutcome
  | status : Nat → ProbeOutcome
deriving DecidableEq

/-- Outcome of the search GET in `search_company_website`: an exception
(anywhere in the request or parse), or the `href` attributes (absent hrefs as
`none`) of the `result__a` anchors. -/
inductive SearchOutcome where
  | exn : SearchOutcome
  | page : List (Option String) → SearchOutcome
deriving DecidableEq

/-- The external world a single `find_career_page` call interacts with. -/
structure Env where
  urljoin : String → String → String
  search : SearchOutcome
  fetch : String → FetchOutcome
  probe : String → ProbeOutcome

/-- The dictionary `find_career_page` returns. -/
structure DiscoveryResult where
  company : String
  main_website : String
  career_urls : List String
deriving DecidableEq

/-- Check whether `pat` is an initial segment of `s`, written out so the whole
substring test is a plain structural recursion. -/
def startsWithL : List Char → List Char → Bool
  | [], _ => true
  | _ :: _, [] => false
  | a :: as, b :: bs => a = b && startsWithL as bs

/-- Semantics of Python's `pat in s` on strings, as character lists: does
`pat` occur contiguously inside `s`? -/
def hasSubstr (pat : List Char) : List Char → Bool
  | [] => pat.isEmpty
  | c :: rest => startsWithL pat (c :: rest) || hasSubstr pat rest

/-- Specification-side statement of substring occurrence: `s` splits as
`pre ++ pat ++ post`. -/
def IsSubstring (pat s : List Char) : Prop :=
  ∃ pre post, s = pre ++ pat ++ post

/-- Semantics of Python's `s.lower()`: lower-case each character
(`String.toLower`, spelled over the character list so it reduces). -/
def lowerStr (s : String) : String := ⟨s.data.map Char.toLower⟩

/-- Semantics of Python's `s.rstrip('/')`: remove every trailing `'/'`. -/
def rstripSlash (s : String) : String :=
  ⟨(s.data.reverse.dropWhile (fun c => c = '/')).reverse⟩

/-- A URL can carry a scheme only if it contains the `':'` separator. The
`requests` library raises `MissingSchema` from `session.get(url)` before any
network I/O when `url` has no scheme, so a fetch of such a string can never
return a parsed page. -/
def hasScheme (u : String) : Bool := u.data.contains ':'

/-- An environment whose fetch behaviour is realizable by `requests`: a GET
that returns a parsed page happened on a URL that at least carries a scheme
separator (otherwise `session.get` deterministically raises `MissingSchema`,
which the model folds into `FetchOutcome.exn`). In particular the sentinel
strings `Not found` and `Error` contain no `':'` and can never be fetched
successfully. -/
def FetchRealizable (env : Env) : Prop :=
  ∀ u anchors, env.fetch u = .page anchors → hasScheme u = true

/-- The `career_keywords` list of `find_career_page` (source lines 81). -/
def career_keywords : List String :=
  ["career", "job", "work with us", "join us", "employment", "hiring",
   "opportunities", "openings"]

/-- The `career_patterns` list of `find_career_page` (source lines 54-65). -/
def career_patterns : List String :=
  ["/careers", "/career", "/jobs", "/job-opportunities", "/work-with-us",
   "/join-us", "/employment", "/opportunities", "/hiring", "/openings"]

/-- The per-anchor test of source lines 77-83: lower-case the href and the
visible text and ask whether any keyword occurs in either. -/
def isCareerLink (a : Anchor) : Bool :=
  career_keywords.any fun kw =>
    hasSubstr kw.data (lowerStr a.href).data || hasSubstr kw.data (lowerStr a.text).data

/-- The scan loop of source lines 76-86: walk the page's anchors, and for each
career-relevant one append `urljoin(main_website, href)` to the accumulator
unless it is already present. -/
def scanLinks (uj : String → String → String) (main_website : String) :
    List Anchor → List String → List String
  | [], acc => acc
  | a :: rest, acc =>
    if isCareerLink a then
      let full_url := uj main_website a.href
      if full_url ∈ acc then scanLinks uj main_website rest acc
      else scanLinks uj main_website rest (acc ++ [full_url])
    else scanLinks uj main_website rest acc

/-- The fallback loop of source lines 90-98: for each pattern, HEAD
`base_url + pattern` and keep the URL exactly when the status is 200; a probe
exception skips that pattern and continues. -/
def probeLinks (probe : String → ProbeOutcome) (base_url : String) :
    List String → List String
  | [] => []
  | p :: rest =>
    if probe (base_url ++ p) = .status 200 then
      (base_url ++ p) :: probeLinks probe base_url rest
    else probeLinks probe base_url rest

/-- Model of `search_company_website` (source lines 17-40): on an exception, `None`;
otherwise take the first `result__a` anchor, read its `href`, and return it
only if it is truthy. -/
def search_company_website (o : SearchOutcome) : Option String :=
  match o with
  | .exn => none
  | .page [] => none
  | .page (none :: _) => none
  | .page (some h :: _) => if h = "" then none else some h

/-- The homepage URL `find_career_page` actually fetches: the caller's
`main_website` when truthy (Python `if not main_website`), else the search
result; `none` when neither exists (the `"Not found"` return, source line 51). -/
def effectiveHomepage (env : Env) (main_website : Option String) : Option String :=
  match main_website with
  | none => search_company_website env.search
  | some s => if s = "" then search_company_website env.search else some s

/-- Source lines 67-112 once a homepage URL is in hand: fetch it; on an
exception return `main_website or "Error"` with no career URLs (lines 106-112);
otherwise scan the anchors, fall back to pattern probing when the scan found
nothing (lines 89-98), and truncate to the first 3 (line 103). -/
def fetchAndScan (env : Env) (company_name mw : String) : DiscoveryResult :=
  match env.fetch mw with
  | .exn =>
    { company := company_name
      main_website := if mw = "" then "Error" else mw
      career_urls := [] }
  | .page anchors =>
    let scanned := scanLinks env.urljoin mw anchors []
    let career_links :=
      if scanned = [] then probeLinks env.probe (rstripSlash mw) career_patterns
      else scanned
    { company := company_name
      main_website := mw
      career_urls := career_links.take 3 }

/-- Model of `find_career_page` (source lines 42-112). -/
def find_career_page (env : Env) (company_name : String)
    (main_website : Option String) : DiscoveryResult :=
  match effectiveHomepage env main_website with
  | none => { company := company_name, main_website := "Not found", career_urls := [] }
  | some mw => fetchAndScan env company_name mw

/-- First-occurrence deduplication, phrased the way the spec words it: keep an
element only when it has not been seen before, preserving first-seen order.
`seen` is the set of already-emitted URLs. -/
def dedupSeen (seen : List String) : List String → List String
  | [] => []
  | x :: xs =>
    if x ∈ seen then dedupSeen seen xs
    else x :: dedupSeen (x :: seen) xs

/-! ### Helper lemmas -/

theorem startsWithL_iff : ∀ pat s : List Char,
    startsWithL pat s = true ↔ ∃ r, s = pat ++ r
  | [], s => by simp [startsWithL]
  | _ :: _, [] => by simp [startsWithL]
  | a :: as, b :: bs => by
    simp only [startsWithL, Bool.and_eq_true, decide_eq_true_eq,
      startsWithL_iff as bs, List.cons_append]
    constructor
    · rintro ⟨rfl, r, rfl⟩
      exact ⟨r, rfl⟩
    · rintro ⟨r, h⟩
      cases h
      exact ⟨rfl, r, rfl⟩

theorem hasSubstr_iff : ∀ pat s : List Char,
    hasSubstr pat s = true ↔ IsSubstring pat s
  | pat, [] => by
    simp only [hasSubstr, List.isEmpty_iff, IsSubstring]
    constructor
    · rintro rfl
      exact ⟨[], [], rfl⟩
    · rintro ⟨pre, post, h⟩
      rcases List.append_eq_nil.mp h.symm with ⟨h1, h2⟩
      rcases List.append_eq_nil.mp h1 with ⟨-, h3⟩
      exact h3
  | pat, c :: rest => by
    rw [hasSubstr, Bool.or_eq_true, startsWithL_iff, hasSubstr_iff pat rest]
    simp only [IsSubstring]
    constructor
    · rintro (⟨r, h⟩ | ⟨pre, post, h⟩)
      · exact ⟨[], r, by simpa using h⟩
      · exact ⟨c :: pre, post, by simp [h]⟩
    · rintro ⟨pre, post, h⟩
      cases pre with
      | nil => exact .inl ⟨post, by simpa using h⟩
      | cons p ps =>
        right
        rw [List.cons_append, List.cons_append, List.cons.injEq] at h
        exact ⟨ps, post, h.2⟩

theorem search_ne_empty {o : SearchOutcome} {h : String}
    (hs : search_company_website o = some h) : h ≠ "" := by
  cases o with
  | exn => simp [search_company_website] at hs
  | page links =>
    rcases links with - | ⟨- | u, rest⟩
    · simp [search_company_website] at hs
    · simp [search_company_website] at hs
    · rw [search_company_website] at hs
      by_cases hu : u = ""
      · rw [if_pos hu] at hs
        exact absurd hs (by simp)
      · rw [if_neg hu] at hs
        cases hs
        exact hu

theorem effectiveHomepage_ne_empty {env : Env} {mw : Option String} {hp : String}
    (h : effectiveHomepage env mw = some hp) : hp ≠ "" := by
  cases mw with
  | none => exact search_ne_empty h
  | some s =>
    rw [effectiveHomepage] at h
    by_cases hs : s = ""
    · rw [if_pos hs] at h
      exact search_ne_empty h
    · rw [if_neg hs] at h
      cases h
      exact hs

theorem dedupSeen_congr : ∀ (l s₁ s₂ : List String), (∀ y, y ∈ s₁ ↔ y ∈ s₂) →
    dedupSeen s₁ l = dedupSeen s₂ l
  | [], _, _, _ => rfl
  | x :: xs, s₁, s₂, h => by
    rw [dedupSeen, dedupSeen]
    by_cases hx : x ∈ s₁
    · rw [if_pos hx, if_pos ((h x).mp hx)]
      exact dedupSeen_congr xs s₁ s₂ h
    · rw [if_neg hx, if_neg (fun c => hx ((h x).mpr c))]
      rw [dedupSeen_congr xs (x :: s₁) (x :: s₂) (by intro y; simp [h y])]

theorem scanLinks_eq (uj : String → String → String) (mw : String) :
    ∀ (l : List Anchor) (acc : List String),
      scanLinks uj mw l acc =
        acc ++ dedupSeen acc ((l.filter isCareerLink).map fun a => uj mw a.href)
  | [], acc => by simp [scanLinks, dedupSeen]
  | a :: rest, acc => by
    rw [scanLinks]
    by_cases hc : isCareerLink a = true
    · rw [if_pos hc, List.filter_cons_of_pos hc, List.map_cons, dedupSeen]
      by_cases hm : uj mw a.href ∈ acc
      · rw [if_pos hm, if_pos hm]
        exact scanLinks_eq uj mw rest acc
      · rw [if_neg hm, if_neg hm, scanLinks_eq uj mw rest (acc ++ [uj mw a.href]),
          List.append_assoc, List.singleton_append,
          dedupSeen_congr _ (acc ++ [uj mw a.href]) (uj mw a.href :: acc)
            (by intro y; simp [or_comm])]
    · rw [if_neg hc, List.filter_cons_of_neg (by simpa using hc)]
      exact scanLinks_eq uj mw rest acc

theorem mem_dedupSeen : ∀ {x : String} (seen l : List String),
    x ∈ dedupSeen seen l → x ∈ l ∧ x ∉ seen
  | x, seen, [], h => by simp [dedupSeen] at h
  | x, seen, y :: ys, h => by
    rw [dedupSeen] at h
    by_cases hy : y ∈ seen
    · rw [if_pos hy] at h
      rcases mem_dedupSeen seen ys h with ⟨h1, h2⟩
      exact ⟨.tail _ h1, h2⟩
    · rw [if_neg hy] at h
      rcases List.mem_cons.mp h with rfl | h
      · exact ⟨.head _, hy⟩
      · rcases mem_dedupSeen (y :: seen) ys h with ⟨h1, h2⟩
        exact ⟨.tail _ h1, fun c => h2 (.tail _ c)⟩

theorem dedupSeen_nodup : ∀ (seen l : List String), (dedupSeen seen l).Nodup
  | _, [] => List.nodup_nil
  | seen, y :: ys => by
    rw [dedupSeen]
    by_cases hy : y ∈ seen
    · rw [if_pos hy]
      exact dedupSeen_nodup seen ys
    · rw [if_neg hy]
      refine List.nodup_cons.mpr ⟨fun c => ?_, dedupSeen_nodup (y :: seen) ys⟩
      exact (mem_dedupSeen (y :: seen) ys c).2 (.head _)

theorem dedupSeen_sublist : ∀ (seen l : List String), (dedupSeen seen l).Sublist l
  | _, [] => .slnil
  | seen, y :: ys => by
    rw [dedupSeen]
    by_cases hy : y ∈ seen
    · rw [if_pos hy]
      exact (dedupSeen_sublist seen ys).cons y
    · rw [if_neg hy]
      exact (dedupSeen_sublist (y :: seen) ys).cons₂ y

theorem dedupSeen_nil_iff (l : List String) : dedupSeen [] l = [] ↔ l = [] := by
  cases l with
  | nil => simp [dedupSeen]
  | cons y ys => simp [dedupSeen]

theorem mem_probeLinks (probe : String → ProbeOutcome) (base : String) :
    ∀ (pats : List String) (u : String), u ∈ probeLinks probe base pats ↔
      ∃ p, p ∈ pats ∧ u = base ++ p ∧ probe (base ++ p) = .status 200
  | [], u => by simp [probeLinks]
  | p :: rest, u => by
    rw [probeLinks]
    by_cases h : probe (base ++ p) = .status 200
    · rw [if_pos h]
      simp only [List.mem_cons, mem_probeLinks probe base rest u]
      constructor
      · rintro (rfl | ⟨q, hq, rfl, h200⟩)
        · exact ⟨p, .inl rfl, rfl, h⟩
        · exact ⟨q, .inr hq, rfl, h200⟩
      · rintro ⟨q, rfl | hq, rfl, h200⟩
        · exact .inl rfl
        · exact .inr ⟨q, hq, rfl, h200⟩
    · rw [if_neg h]
      rw [mem_probeLinks probe base rest u]
      simp only [List.mem_cons]
      constructor
      · rintro ⟨q, hq, rfl, h200⟩
        exact ⟨q, .inr hq, rfl, h200⟩
      · rintro ⟨q, rfl | hq, rfl, h200⟩
        · exact absurd h200 h
        · exact ⟨q, hq, rfl, h200⟩

theorem find_career_page_some (env : Env) (name hp : String) (mw : Option String)
    (h : effectiveHomepage env mw = some hp) :
    find_career_page env name mw = fetchAndScan env name hp := by
  unfold find_career_page
  rw [h]

theorem find_career_page_none (env : Env) (name : String) (mw : Option String)
    (h : effectiveHomepage env mw = none) :
    find_career_page env name mw =
      { company := name, main_website := "Not found", career_urls := [] } := by
  unfold find_career_page
  rw [h]

theorem fetchAndScan_exn (env : Env) (name hp : String) (h : env.fetch hp = .exn) :
    fetchAndScan env name hp =
      { company := name, main_website := if hp = "" then "Error" else hp,
        career_urls := [] } := by
  unfold fetchAndScan
  rw [h]

theorem fetchAndScan_page (env : Env) (name hp : String) (anchors : List Anchor)
    (h : env.fetch hp = .page anchors) :
    fetchAndScan env name hp =
      { company := name, main_website := hp,
        career_urls :=
          (if scanLinks env.urljoin hp anchors [] = [] then
            probeLinks env.probe (rstripSlash hp) career_patterns
          else scanLinks env.urljoin hp anchors []).take 3 } := by
  unfold fetchAndScan
  rw [h]

theorem head_dropWhile_not (p : Char → Bool) : ∀ (l : List Char) (c : Char),
    (l.dropWhile p).head? = some c → p c = false
  | [], c => by simp [List.dropWhile]
  | x :: xs, c => by
    rw [List.dropWhile_cons]
    by_cases hx : p x = true
    · rw [if_pos hx]
      exact head_dropWhile_not p xs c
    · rw [if_neg hx]
      intro h
      rw [List.head?_cons, Option.some.injEq] at h
      rw [← h]
      exact Bool.not_eq_true _ |>.mp hx

theorem rstripSlash_spec (s : String) :
    ∃ k, s.data = (rstripSlash s).data ++ List.replicate k '/' ∧
      ∀ c, (rstripSlash s).data.getLast? = some c → c ≠ '/' := by
  refine ⟨(s.data.reverse.takeWhile (fun c => c = '/')).length, ?_, ?_⟩
  · have h1 : s.data.reverse.takeWhile (fun c => c = '/') ++
        s.data.reverse.dropWhile (fun c => c = '/') = s.data.reverse :=
      List.takeWhile_append_dropWhile (p := fun c => decide (c = '/')) (l := s.data.reverse)
    have h2 : s.data.reverse.takeWhile (fun c => c = '/') =
        List.replicate (s.data.reverse.takeWhile (fun c => c = '/')).length '/' := by
      rw [List.eq_replicate_iff]
      exact ⟨rfl, fun b hb => by simpa using List.mem_takeWhile_imp hb⟩
    calc s.data = s.data.reverse.reverse := (List.reverse_reverse _).symm
      _ = (s.data.reverse.takeWhile (fun c => c = '/') ++
            s.data.reverse.dropWhile (fun c => c = '/')).reverse := by rw [h1]
      _ = (s.data.reverse.dropWhile (fun c => c = '/')).reverse ++
            (s.data.reverse.takeWhile (fun c => c = '/')).reverse := by
            rw [List.reverse_append]
      _ = (rstripSlash s).data ++
            (List.replicate (s.data.reverse.takeWhile (fun c => c = '/')).length '/').reverse := by
            rw [← h2]; rfl
      _ = (rstripSlash s).data ++
            List.replicate (s.data.reverse.takeWhile (fun c => c = '/')).length '/' := by
            rw [List.reverse_replicate]
  · intro c hc
    have hc' : (s.data.reverse.dropWhile (fun c => c = '/')).head? = some c := by
      rw [← List.getLast?_reverse]
      exact hc
    have := head_dropWhile_not _ _ _ hc'
    simpa using this

theorem career_urls_scan (env : Env) (name hp : String) (mw : Option String)
    (anchors : List Anchor)
    (heff : effectiveHomepage env mw = some hp)
    (hfp : env.fetch hp = .page anchors)
    (hne : scanLinks env.urljoin hp anchors [] ≠ []) :
    (find_career_page env name mw).career_urls =
      (scanLinks env.urljoin hp anchors []).take 3 := by
  rw [find_career_page_some env name hp mw heff,
    fetchAndScan_page env name hp anchors hfp, if_neg hne]

theorem career_urls_fallback (env : Env) (name hp : String) (mw : Option String)
    (anchors : List Anchor)
    (heff : effectiveHomepage env mw = some hp)
    (hfp : env.fetch hp = .page anchors)
    (hnorel : anchors.filter isCareerLink = []) :
    (find_career_page env name mw).career_urls =
      (probeLinks env.probe (rstripSlash hp) career_patterns).take 3 := by
  have hscan : scanLinks env.urljoin hp anchors [] = [] := by
    rw [scanLinks_eq, hnorel]
    rfl
  rw [find_career_page_some env name hp mw heff,
    fetchAndScan_page env name hp anchors hfp, if_pos hscan]

theorem scanLinks_nil_eq (env : Env) (hp : String) (anchors : List Anchor) :
    scanLinks env.urljoin hp anchors [] =
      dedupSeen [] ((anchors.filter isCareerLink).map fun a => env.urljoin hp a.href) := by
  rw [scanLinks_eq, List.nil_append]

/-! ### Concrete environments used by counterexamples and witnesses -/

/-- Environment whose search finds `https://x.com` and whose homepage GET
always raises. -/
def envFetchErr : Env :=
  { urljoin := fun b h => b ++ h
    search := .page [some "https://x.com"]
    fetch := fun _ => .exn
    probe := fun _ => .exn }

/-- Environment in which the resolver raises and every homepage GET raises as
well — the fully-failing world that produces the `Not found` sentinel. -/
def envNotFound : Env :=
  { urljoin := fun b h => b ++ h
    search := .exn
    fetch := fun _ => .exn
    probe := fun _ => .exn }

/-- A page with one irrelevant and one relevant anchor; every probe would
report 200, so any probe that was issued would be visible in the result. -/
def envScanOne : Env :=
  { urljoin := fun b h => b ++ h
    search := .exn
    fetch := fun _ => .page
      [{ href := "/about", text := "About" }, { href := "/careers", text := "Careers" }]
    probe := fun _ => .status 200 }

/-- Five relevant anchors, the last URL appearing twice and in fourth
position. -/
def anchorsDup : List Anchor :=
  [{ href := "/job1", text := "" }, { href := "/job2", text := "" },
   { href := "/job3", text := "" }, { href := "/job4", text := "" },
   { href := "/job4", text := "" }]

/-- Environment serving `anchorsDup`, with an identity-like resolver. -/
def envDup : Env :=
  { urljoin := fun _ h => h
    search := .exn
    fetch := fun _ => .page anchorsDup
    probe := fun _ => .exn }

/-- A page with no relevant anchor and probes that all answer 200. -/
def envAll200 : Env :=
  { urljoin := fun b h => b ++ h
    search := .exn
    fetch := fun _ => .page []
    probe := fun _ => .status 200 }

/-- A page with no relevant anchor; only the `/jobs` probe answers 200,
everything else 404. -/
def envJobsOnly : Env :=
  { urljoin := fun b h => b ++ h
    search := .exn
    fetch := fun _ => .page [{ href := "/about", text := "About" }]
    probe := fun u => if u = "https://x.com/jobs" then .status 200 else .status 404 }

/-- Homepage with a non-root path and a trailing slash; only the careers
probe under that path answers 200. -/
def envDeepPath : Env :=
  { urljoin := fun b h => b ++ h
    search := .exn
    fetch := fun _ => .page []
    probe := fun u =>
      if u = "https://x.com/en/home/careers" then .status 200 else .status 404 }

/-! ### Claims -/

/-- C1, counterexample: the search resolves the homepage to `https://x.com`,
the homepage GET raises, and `find_career_page` reports that URL — not the
sentinel `Error` — as `main_website` (source line 110 is
`main_website or "Error"`, and `main_website` is always truthy once a fetch
has been attempted). -/
theorem C1_counterexample :
    envFetchErr.fetch "https://x.com" = .exn ∧
      (find_career_page envFetchErr "Acme" none).career_urls = [] ∧
      (find_career_page envFetchErr "Acme" none).main_website = "https://x.com" ∧
      (find_career_page envFetchErr "Acme" none).main_website ≠ "Error" := by
  refine ⟨rfl, rfl, rfl, ?_⟩
  decide

/-- C1, amended: if the homepage GET (or the parse of its body) raises, the
result has empty `career_urls` and `main_website` equal to the attempted
homepage URL; the sentinel `Error` would be used only for an empty URL, which
cannot reach the fetch. -/
theorem C1_fetch_error_result (env : Env) (name hp : String) (mw : Option String)
    (heff : effectiveHomepage env mw = some hp)
    (hfe : env.fetch hp = .exn) :
    find_career_page env name mw =
      { company := name, main_website := hp, career_urls := [] } := by
  rw [find_career_page_some env name hp mw heff, fetchAndScan_exn env name hp hfe,
    if_neg (effectiveHomepage_ne_empty heff)]

/-- C1, witness for the amended theorem at a caller-supplied homepage. -/
theorem C1_fetch_error_result_witness :
    find_career_page envFetchErr "Acme" (some "https://y.com") =
      { company := "Acme", main_website := "https://y.com", career_urls := [] } :=
  C1_fetch_error_result envFetchErr "Acme" "https://y.com" (some "https://y.com")
    (by decide) rfl

/-- C2: every result of `find_career_page` carries at most 3 career URLs. -/
theorem C2_career_urls_length_le_three (env : Env) (name : String)
    (mw : Option String) :
    (find_career_page env name mw).career_urls.length ≤ 3 := by
  cases heff : effectiveHomepage env mw with
  | none =>
    rw [find_career_page_none env name mw heff]
    simp
  | some hp =>
    rw [find_career_page_some env name hp mw heff]
    cases hfe : env.fetch hp with
    | exn =>
      rw [fetchAndScan_exn env name hp hfe]
      simp
    | page anchors =>
      rw [fetchAndScan_page env name hp anchors hfe]
      simp only [List.length_take]
      exact min_le_left _ _

/-- C3: in every environment whose fetch behaviour is realizable by the
`requests` library (a successful GET implies the URL carries a scheme
separator; `session.get` of a scheme-less string raises `MissingSchema`
before any I/O), a result whose `main_website` is one of the sentinel strings
`Not found` or `Error` has empty `career_urls`. The sentinels themselves
contain no `':'`, so a homepage equal to a sentinel can never be fetched
successfully and always lands in an empty-list branch. -/
theorem C3_sentinel_implies_empty (env : Env) (name : String) (mw : Option String)
    (hreal : FetchRealizable env)
    (hsent : (find_career_page env name mw).main_website = "Not found" ∨
      (find_career_page env name mw).main_website = "Error") :
    (find_career_page env name mw).career_urls = [] := by
  cases heff : effectiveHomepage env mw with
  | none => rw [find_career_page_none env name mw heff]
  | some hp =>
    rw [find_career_page_some env name hp mw heff] at hsent ⊢
    cases hfe : env.fetch hp with
    | exn => rw [fetchAndScan_exn env name hp hfe]
    | page anchors =>
      rw [fetchAndScan_page env name hp anchors hfe] at hsent
      simp only at hsent
      have hcolon := hreal hp anchors hfe
      rcases hsent with h | h
      · rw [h] at hcolon
        exact absurd hcolon (by decide)
      · rw [h] at hcolon
        exact absurd hcolon (by decide)

/-- C3, witness: the resolver fails and no homepage is supplied, so the result
is the `Not found` sentinel with empty `career_urls`; the all-raising fetch is
trivially realizable. -/
theorem C3_sentinel_implies_empty_witness :
    (find_career_page envNotFound "Acme" none).career_urls = [] :=
  C3_sentinel_implies_empty envNotFound "Acme" none
    (fun _ _ h => FetchOutcome.noConfusion h)
    (Or.inl rfl)

/-- C4: fallback probing happens exactly when the page scan classifies zero
anchors as career-relevant. When the scan found at least one link the result
is the scanned list truncated to 3 and is identical for every probe
behaviour — no HEAD probe can influence it; when the scan found nothing the
result is the probe list truncated to 3. -/
theorem C4_fallback_iff_scan_empty (env : Env) (name hp : String)
    (mw : Option String) (anchors : List Anchor)
    (heff : effectiveHomepage env mw = some hp)
    (hfp : env.fetch hp = .page anchors) :
    (scanLinks env.urljoin hp anchors [] ≠ [] →
      ∀ pr : String → ProbeOutcome,
        (find_career_page { env with probe := pr } name mw).career_urls =
          (scanLinks env.urljoin hp anchors []).take 3) ∧
    (scanLinks env.urljoin hp anchors [] = [] →
      (find_career_page env name mw).career_urls =
        (probeLinks env.probe (rstripSlash hp) career_patterns).take 3) := by
  constructor
  · intro hne pr
    have heff2 : effectiveHomepage { env with probe := pr } mw = some hp := heff
    have hfp2 : ({ env with probe := pr } : Env).fetch hp = .page anchors := hfp
    have hne2 : scanLinks ({ env with probe := pr } : Env).urljoin hp anchors [] ≠ [] := hne
    exact career_urls_scan { env with probe := pr } name hp mw anchors heff2 hfp2 hne2
  · intro hz
    rw [find_career_page_some env name hp mw heff,
      fetchAndScan_page env name hp anchors hfp, if_pos hz]

/-- C4, witness: a page whose scan finds exactly one relevant link, probed
with a probe function that would answer 404 everywhere; the career URLs come
solely from the scan. -/
theorem C4_fallback_iff_scan_empty_witness :
    (find_career_page { envScanOne with probe := fun _ => .status 404 }
        "Acme" (some "https://x.com")).career_urls =
      (scanLinks envScanOne.urljoin "https://x.com"
        [{ href := "/about", text := "About" },
         { href := "/careers", text := "Careers" }] []).take 3 :=
  (C4_fallback_iff_scan_empty envScanOne "Acme" "https://x.com"
      (some "https://x.com")
      [{ href := "/about", text := "About" },
       { href := "/careers", text := "Careers" }]
      (by decide) rfl).1 (by decide) (fun _ => .status 404)

/-- C5: an anchor is classified career-relevant exactly when some keyword of
the fixed vocabulary occurs as a substring of the lower-cased href or of the
lower-cased visible text; in particular href `/Careers-Info` and text
`Join Us Today` both classify as relevant. -/
theorem C5_classification_iff_keyword :
    (∀ a : Anchor, isCareerLink a = true ↔
      ∃ kw, kw ∈ career_keywords ∧
        (IsSubstring kw.data (lowerStr a.href).data ∨
         IsSubstring kw.data (lowerStr a.text).data)) ∧
    isCareerLink { href := "/Careers-Info", text := "" } = true ∧
    isCareerLink { href := "#", text := "Join Us Today" } = true := by
  refine ⟨fun a => ?_, by decide, by decide⟩
  simp only [isCareerLink, List.any_eq_true, Bool.or_eq_true, hasSubstr_iff]

/-- C6, counterexample: two anchors resolve to `/job4`, yet after the
truncation to 3 entries (source line 103) the result does not contain `/job4`
at all — not exactly once as claimed. -/
theorem C6_counterexample :
    ((anchorsDup.filter isCareerLink).map
        fun a => envDup.urljoin "https://x.com" a.href).count "/job4" = 2 ∧
      (find_career_page envDup "Acme" (some "https://x.com")).career_urls.count
        "/job4" = 0 := by
  decide

/-- C6, amended: when the scan finds at least one relevant anchor, the
career URLs are the first-occurrence deduplication of the resolved relevant
hrefs, in first-encounter order, truncated to the first 3; consequently the
list has no duplicate and is an order-preserving subsequence of the resolved
scan sequence. A URL occurring twice therefore contributes at most one entry
(exactly one only when its first occurrence falls among the first three
distinct URLs). -/
theorem C6_dedup_first_occurrence (env : Env) (name hp : String)
    (mw : Option String) (anchors : List Anchor)
    (heff : effectiveHomepage env mw = some hp)
    (hfp : env.fetch hp = .page anchors)
    (hne : (anchors.filter isCareerLink).map (fun a => env.urljoin hp a.href) ≠ []) :
    (find_career_page env name mw).career_urls =
      (dedupSeen []
        ((anchors.filter isCareerLink).map fun a => env.urljoin hp a.href)).take 3 ∧
    (find_career_page env name mw).career_urls.Nodup ∧
    (find_career_page env name mw).career_urls.Sublist
      ((anchors.filter isCareerLink).map fun a => env.urljoin hp a.href) := by
  have hscanne : scanLinks env.urljoin hp anchors [] ≠ [] := by
    rw [scanLinks_nil_eq]
    intro h
    exact hne ((dedupSeen_nil_iff _).mp h)
  have hcu := career_urls_scan env name hp mw anchors heff hfp hscanne
  rw [scanLinks_nil_eq] at hcu
  refine ⟨hcu, ?_, ?_⟩
  · rw [hcu]
    exact (List.take_sublist 3 _).nodup (dedupSeen_nodup [] _)
  · rw [hcu]
    exact (List.take_sublist 3 _).trans (dedupSeen_sublist [] _)

/-- C6, witness for the amended theorem on the duplicated-anchor page. -/
theorem C6_dedup_first_occurrence_witness :
    (find_career_page envDup "Acme" (some "https://x.com")).career_urls =
      (dedupSeen []
        ((anchorsDup.filter isCareerLink).map
          fun a => envDup.urljoin "https://x.com" a.href)).take 3 :=
  (C6_dedup_first_occurrence envDup "Acme" "https://x.com" (some "https://x.com")
    anchorsDup (by decide) rfl (by decide)).1

/-- C7, counterexample: with no relevant anchor and every probe answering 200,
the `/job-opportunities` probe reports 200 yet its URL is not in the result —
the truncation to 3 entries also applies to the fallback list, so a
200-answering probe URL is not always included. -/
theorem C7_counterexample :
    envAll200.probe "https://x.com/job-opportunities" = .status 200 ∧
      "/job-opportunities" ∈ career_patterns ∧
      "https://x.com/job-opportunities" ∉
        (find_career_page envAll200 "Acme" (some "https://x.com")).career_urls := by
  decide

/-- C7, amended: on a page with no career-relevant anchor the result is the
probe list truncated to its first 3 entries, and a URL is in the
(untruncated) probe list exactly when it is `base ++ pattern` for some
pattern whose HEAD check answers status 200 — a probe exception or any other
status excludes the pattern and probing continues. -/
theorem C7_fallback_probe_200 (env : Env) (name hp : String)
    (mw : Option String) (anchors : List Anchor)
    (heff : effectiveHomepage env mw = some hp)
    (hfp : env.fetch hp = .page anchors)
    (hnorel : anchors.filter isCareerLink = []) :
    (find_career_page env name mw).career_urls =
      (probeLinks env.probe (rstripSlash hp) career_patterns).take 3 ∧
    ∀ u, u ∈ probeLinks env.probe (rstripSlash hp) career_patterns ↔
      ∃ p, p ∈ career_patterns ∧ u = rstripSlash hp ++ p ∧
        env.probe (rstripSlash hp ++ p) = .status 200 :=
  ⟨career_urls_fallback env name hp mw anchors heff hfp hnorel,
   fun u => mem_probeLinks env.probe (rstripSlash hp) career_patterns u⟩

/-- C7, witness: no relevant anchors, only the `/jobs` probe answers 200 and
the rest answer 404, so the result is exactly the one `/jobs` URL. -/
theorem C7_fallback_probe_200_witness :
    (find_career_page envJobsOnly "Acme" (some "https://x.com")).career_urls =
      ["https://x.com/jobs"] := by
  have h := C7_fallback_probe_200 envJobsOnly "Acme" "https://x.com"
    (some "https://x.com") [{ href := "/about", text := "About" }]
    (by decide) rfl (by decide)
  rw [h.1]
  decide

/-- C8: the resolver returns `None` when the search request raises and when
the results page has no `result__a` anchor; being a total function of the
search outcome, it can never propagate an exception to its caller. -/
theorem C8_search_failure_none :
    search_company_website .exn = none ∧
      search_company_website (.page []) = none :=
  ⟨rfl, rfl⟩

/-- C9: discovery is deterministic — two runs against externals that answer
identically (same URL resolution, same search outcome, same fetch outcome
per URL, same probe outcome per URL) on the same company name and homepage
produce identical results, `career_urls` order included. -/
theorem C9_deterministic (env₁ env₂ : Env) (name : String) (mw : Option String)
    (hu : ∀ b h, env₁.urljoin b h = env₂.urljoin b h)
    (hs : env₁.search = env₂.search)
    (hf : ∀ u, env₁.fetch u = env₂.fetch u)
    (hp : ∀ u, env₁.probe u = env₂.probe u) :
    find_career_page env₁ name mw = find_career_page env₂ name mw := by
  have hu' : env₁.urljoin = env₂.urljoin := funext fun b => funext fun h => hu b h
  have hf' : env₁.fetch = env₂.fetch := funext hf
  have hp' : env₁.probe = env₂.probe := funext hp
  cases env₁
  cases env₂
  simp only at hu' hs hf' hp'
  rw [hu', hs, hf', hp']

/-- C9, witness at a concrete environment. -/
theorem C9_deterministic_witness :
    find_career_page envJobsOnly "Acme" (some "https://x.com") =
      find_career_page envJobsOnly "Acme" (some "https://x.com") :=
  C9_deterministic envJobsOnly envJobsOnly "Acme" (some "https://x.com")
    (fun _ _ => rfl) rfl (fun _ => rfl) (fun _ => rfl)

/-- C10: fallback probe URLs are the homepage URL with every trailing slash
removed (path included — the base is not reduced to the site root), plus a
pattern suffix: `rstripSlash` only removes trailing `/` characters, and every
fallback career URL is `rstripSlash homepage ++ pattern`. -/
theorem C10_probe_base_is_rstripped_homepage (env : Env) (name hp : String)
    (mw : Option String) (anchors : List Anchor)
    (heff : effectiveHomepage env mw = some hp)
    (hfp : env.fetch hp = .page anchors)
    (hnorel : anchors.filter isCareerLink = []) :
    (∀ s : String, ∃ k, s.data = (rstripSlash s).data ++ List.replicate k '/' ∧
      ∀ c, (rstripSlash s).data.getLast? = some c → c ≠ '/') ∧
    ∀ u, u ∈ (find_career_page env name mw).career_urls →
      ∃ p, p ∈ career_patterns ∧ u = rstripSlash hp ++ p := by
  refine ⟨rstripSlash_spec, fun u hu => ?_⟩
  rw [career_urls_fallback env name hp mw anchors heff hfp hnorel] at hu
  have hu' := List.take_subset 3 _ hu
  rcases (mem_probeLinks env.probe (rstripSlash hp) career_patterns u).mp hu'
    with ⟨p, hpmem, hup, -⟩
  exact ⟨p, hpmem, hup⟩

/-- C10, witness: homepage `https://x.com/en/home/` — the probes run against
the slash-stripped full path, and the careers probe under `/en/home` is the
single result, not a site-root URL. -/
theorem C10_probe_base_is_rstripped_homepage_witness :
    ∃ p, p ∈ career_patterns ∧
      "https://x.com/en/home/careers" = rstripSlash "https://x.com/en/home/" ++ p :=
  (C10_probe_base_is_rstripped_homepage envDeepPath "Acme" "https://x.com/en/home/"
      (some "https://x.com/en/home/") [] (by decide) rfl (by decide)).2
    "https://x.com/en/home/careers" (by decide)

end CareerFinder
